import Mathlib

/-!
Shallow embedding of the sftpgo-api Go client library (package `api`):
the data model (`User`, `Users`, secrets, filesystem configs), the token
provider, the request building and error-classification logic, and the
`GetAllUsers` pagination loop, together with theorems settling the claims
about them.

Conventions: Go `int`/`int64` become `Int`; timestamps become `Int`
(seconds for the token expiry comparison); fallible operations return
`Except`; the HTTP layer is an oracle function from requests to
transport results, so that "number of network calls" and "requests
issued" are explicit data.
-/

namespace SftpgoApi

/-! ## Data model (src/unnamed/part_001) -/

/-- FilesystemProvider defines the supported storages. -/
inductive FilesystemProvider where
  | LocalFilesystemProvider
  | S3FilesystemProvider
  | GCSFilesystemProvider
  | AzureBlobFilesystemProvider
  | CryptedFilesystemProvider
  | SFTPFilesystemProvider
deriving Repr, DecidableEq, Inhabited

/-- Secret: a credential value tagged with an encryption status. -/
structure Secret where
  Status : String := ""
  Payload : String := ""
  Key : String := ""
  AdditionalData : String := ""
  Mode : Int := 0
deriving Repr, DecidableEq, Inhabited

/-- S3FsConfig defines the configuration for S3 based filesystem. -/
structure S3FsConfig where
  Bucket : String := ""
  KeyPrefix : String := ""
  Region : String := ""
  AccessKey : String := ""
  AccessSecret : Secret := {}
  Endpoint : String := ""
  StorageClass : String := ""
  UploadPartSize : Int := 0
  UploadConcurrency : Int := 0
deriving Repr, DecidableEq, Inhabited

/-- Filesystem defines cloud storage filesystem details. -/
structure Filesystem where
  Provider : FilesystemProvider := .LocalFilesystemProvider
  S3Config : S3FsConfig := {}
deriving Repr, DecidableEq, Inhabited

/-- ExtensionsFilter defines filters based on file extensions. -/
structure ExtensionsFilter where
  Path : String := ""
  AllowedExtensions : List String := []
  DeniedExtensions : List String := []
deriving Repr, DecidableEq, Inhabited

/-- PatternsFilter defines filters based on shell like patterns. -/
structure PatternsFilter where
  Path : String := ""
  AllowedPatterns : List String := []
  DeniedPatterns : List String := []
deriving Repr, DecidableEq, Inhabited

/-- UserFilters defines additional restrictions for a user. -/
structure UserFilters where
  AllowedIP : List String := []
  DeniedIP : List String := []
  DeniedLoginMethods : List String := []
  DeniedProtocols : List String := []
  FileExtensions : List ExtensionsFilter := []
  FilePatterns : List PatternsFilter := []
  MaxUploadFileSize : Int := 0
deriving Repr, DecidableEq, Inhabited

/-- User defines a SFTPGo user (Go map `Permissions` is an association list). -/
structure User where
  ID : Int := 0
  Status : Int := 0
  Username : String := ""
  ExpirationDate : Int := 0
  Password : String := ""
  PublicKeys : List String := []
  HomeDir : String := ""
  UID : Int := 0
  GID : Int := 0
  MaxSessions : Int := 0
  QuotaSize : Int := 0
  QuotaFiles : Int := 0
  Permissions : List (String × List String) := []
  UsedQuotaSize : Int := 0
  UsedQuotaFiles : Int := 0
  LastQuotaUpdate : Int := 0
  UploadBandwidth : Int := 0
  DownloadBandwidth : Int := 0
  LastLogin : Int := 0
  Filters : UserFilters := {}
  FsConfig : Filesystem := {}
  AdditionalInfo : String := ""
deriving Repr, DecidableEq, Inhabited

/-- `type Users []User` -/
abbrev Users := List User

/-- `type UserFilterFunc func(user User) bool` -/
abbrev UserFilterFunc := User → Bool

/-- `func (users Users) Filter(f UserFilterFunc) Users`: a loop appending
each element satisfying `f` to an initially empty `Results`. -/
def Users.Filter (users : Users) (f : UserFilterFunc) : Users :=
  List.foldl (fun Results User => if f User then Results ++ [User] else Results)
    ([] : List User) users

/-- ConnectionTransfer (active upload/download of a connection). -/
structure ConnectionTransfer where
  OperationType : String := ""
  StartTime : Int := 0
  Size : Int := 0
  VirtualPath : String := ""
deriving Repr, DecidableEq, Inhabited

/-- ConnectionStatus returns the status for an active connection. -/
structure ConnectionStatus where
  Username : String := ""
  ConnectionID : String := ""
  ClientVersion : String := ""
  RemoteAddress : String := ""
  ConnectionTime : Int := 0
  LastActivity : Int := 0
  Protocol : String := ""
  Transfers : List ConnectionTransfer := []
  Command : String := ""
deriving Repr, DecidableEq, Inhabited

/-- UserQuotaScan: { username, start-time }. -/
structure UserQuotaScan where
  Username : String := ""
  Start : Int := 0
deriving Repr, DecidableEq, Inhabited

abbrev UserQuotaScans := List UserQuotaScan

/-! ## HTTP layer and error classification (src/client.go) -/

/-- `apiError` — the `{message, error}` JSON body of a structured server error. -/
structure apiError where
  Message : String := ""
  Err : String := ""
deriving Repr, DecidableEq, Inhabited

/-- `func (err apiError) Error() string`: the `error` field when non-empty,
else the `message` field. -/
def apiError.ErrorMsg (err : apiError) : String :=
  if err.Err ≠ "" then err.Err else err.Message

/-- The error values a client operation can surface: the two fixed sentinels
(`ErrUnauthorized`, `ErrForbidden`), a structured `apiError`, a JSON decode
failure, or a transport failure from `req.Do()`. -/
inductive ClientError where
  | ErrUnauthorized
  | ErrForbidden
  | api (e : apiError)
  | decodeErr (msg : String)
  | transport (msg : String)
deriving Repr, DecidableEq, Inhabited

/-- An outbound HTTP request, as the gentleman request builder assembles it:
path, method (gentleman defaults to GET), percent-free query parameters in
the order `SetQuery` attached them, optional HTTP Basic credentials and the
`Authorization` header the token plugin may set. -/
structure Request where
  path : String := ""
  method : String := "GET"
  query : List (String × String) := []
  basicAuth : Option (String × String) := none
  authHeader : Option String := none
deriving Repr, DecidableEq, Inhabited

/-- gentleman `resp.Ok`: the server returned a 2xx status. -/
def statusOk (status : Nat) : Bool :=
  200 ≤ status && status < 300

/-- A response as the error path observes it: the status code and the result
of decoding the body as an `apiError` (`Except.error` = JSON decode failure). -/
structure ErrResponse where
  status : Nat
  errBody : Except String apiError
deriving Repr, Inhabited

/-- `req.Do()`: either a transport error or a response. -/
inductive TransportResult (ρ : Type) where
  | err (msg : String)
  | resp (r : ρ)
deriving Repr, Inhabited

/-- `func parseErrorResponse(resp *gentleman.Response) error`: 401 → the
Unauthorized sentinel, 403 → the Forbidden sentinel, any other status →
decode the body as `apiError` and return it (the decode error itself when
decoding fails). -/
def parseErrorResponse (status : Nat) (errBody : Except String apiError) : ClientError :=
  if status = 401 then .ErrUnauthorized
  else if status = 403 then .ErrForbidden
  else
    match errBody with
    | .error e => .decodeErr e
    | .ok apiErr => .api apiErr

/-! ## Token provider (src/unnamed/part_000) -/

/-- The mutable fields of `tokenProvider`: the cached token `Value`
(`access_token`) and its `Expires` timestamp (`expires_at`), here in
seconds. `Client`, `Username` and `Password` are immutable and passed
separately. -/
structure TokenState where
  Value : String := ""
  Expires : Int := 0
deriving Repr, DecidableEq, Inhabited

/-- The token endpoint's response body `{access_token, expires_at}` as
`resp.JSON(t)` decodes it into the provider. -/
structure tokenResponse where
  access_token : String
  expires_at : Int
deriving Repr, DecidableEq, Inhabited

/-- A token-endpoint response: status code, the body decoded as the token
fields (success path) and the body decoded as `apiError` (error path). -/
structure TokenEndpointResponse where
  status : Nat
  tokenBody : Except String tokenResponse
  errBody : Except String apiError
deriving Repr, Inhabited

/-- The refresh request `Token()` builds: path `/api/v2/token` with
HTTP Basic credentials (`auth.Basic(t.Username, t.Password)`). -/
def tokenRequest (Username Password : String) : Request :=
  { path := "/api/v2/token", basicAuth := some (Username, Password) }

/-- `func (t *tokenProvider) Token() (string, error)`. The network is the
oracle `server`; the result is the returned value, the provider's state
after the call, and the list of requests issued (in order), so that
"no network call" is `[]`. Times are in seconds: `t.Expires.After(
time.Now().Add(time.Second*10))` is `st.Expires > now + 10`. -/
def Token (st : TokenState) (now : Int) (Username Password : String)
    (server : Request → TransportResult TokenEndpointResponse) :
    Except ClientError String × TokenState × List Request :=
  if st.Expires > now + 10 then
    (.ok st.Value, st, [])
  else
    let req := tokenRequest Username Password
    match server req with
    | .err m => (.error (.transport m), st, [req])
    | .resp r =>
      if statusOk r.status then
        match r.tokenBody with
        | .error m => (.error (.decodeErr m), st, [req])
        | .ok tr =>
          (.ok tr.access_token, { Value := tr.access_token, Expires := tr.expires_at }, [req])
      else
        (.error (parseErrorResponse r.status r.errBody), st, [req])

/-- The request-interceptor `NewTokenPlugin` installs: on a token error it
calls `h.Error` (the request is never sent, the token error is surfaced);
on success it sets `Authorization: Bearer <token>` and forwards the request
to `send`. `send` is the rest of the pipeline, consulted only on the
success path. -/
def tokenPluginSend {ρ : Type} (tokenResult : Except ClientError String)
    (req : Request) (send : Request → Except ClientError ρ) : Except ClientError ρ :=
  match tokenResult with
  | .error e => .error e
  | .ok token => send { req with authHeader := some ("Bearer " ++ token) }

/-! ## GetUsers request building and the GetAllUsers loop (src/client.go) -/

/-- `type GetUsersInput struct { Offset int; Limit int; Order string }` -/
structure GetUsersInput where
  Offset : Int := 0
  Limit : Int := 0
  Order : String := ""
deriving Repr, DecidableEq, Inhabited

/-- The request `GetUsers` builds: path `/api/v2/users`; `offset` is attached
(via `strconv.Itoa`) only when `input.Offset > 0`, `limit` only when
`input.Limit > 0`, `order` only when `input.Order` is non-empty. -/
def buildGetUsersRequest (input : GetUsersInput) : Request :=
  let req : Request := { path := "/api/v2/users" }
  let req := if input.Offset > 0 then
    { req with query := req.query ++ [("offset", toString input.Offset)] } else req
  let req := if input.Limit > 0 then
    { req with query := req.query ++ [("limit", toString input.Limit)] } else req
  let req := if input.Order ≠ "" then
    { req with query := req.query ++ [("order", input.Order)] } else req
  req

/-- The loop body of `func (c *client) GetAllUsers() (Users, error)`,
with `get` standing for `c.GetUsers`, explicit fuel (the Go loop is
unbounded), the accumulator `all`, and the trace `calls` of inputs passed
to `GetUsers` so far. `none` means the fuel ran out with the loop still
running. On a page error the accumulated records are discarded and the
error alone is returned (`return nil, err`); a page shorter than
`Input.Limit` breaks the loop; otherwise `Input.Offset += Input.Limit`. -/
def getAllUsersLoop (get : GetUsersInput → Except ClientError Users) :
    Nat → GetUsersInput → Users → List GetUsersInput →
    Option (Except ClientError Users × List GetUsersInput)
  | 0, _, _, _ => none
  | fuel + 1, Input, all, calls =>
    match get Input with
    | .error e => some (.error e, calls ++ [Input])
    | .ok page =>
      let all := all ++ page
      if page.length < Input.Limit then some (.ok all, calls ++ [Input])
      else getAllUsersLoop get fuel { Input with Offset := Input.Offset + Input.Limit }
        all (calls ++ [Input])

/-- `GetAllUsers`: starts the loop at `Input = { Offset: 0, Limit: 500 }`
with an empty accumulation. -/
def GetAllUsers (get : GetUsersInput → Except ClientError Users) (fuel : Nat) :
    Option (Except ClientError Users × List GetUsersInput) :=
  getAllUsersLoop get fuel { Offset := 0, Limit := 500 } [] []

/-- Modelled from the spec: the request `TerminateActiveConnection`
issues, a DELETE to the per-connection endpoint
`/api/v2/connections/{id}` (the path client_test.go mocks). -/
def terminateRequest (connectionID : String) : Request :=
  { path := "/api/v2/connections/" ++ connectionID, method := "DELETE" }

/-- Modelled from the spec: `TerminateActiveConnection` is absent from the
repository files under src/ (client_test.go calls it and mocks
`DELETE /api/v2/connections/{id}`, but client.go has no definition). Per
the spec: "DELETE to a per-connection endpoint; success is 2xx", non-2xx
mapped via the shared error-classification rule, transport errors surfaced
verbatim. `none` is Go's `nil` error. -/
def TerminateActiveConnection (connectionID : String)
    (server : Request → TransportResult ErrResponse) : Option ClientError :=
  match server (terminateRequest connectionID) with
  | .err m => some (.transport m)
  | .resp r =>
    if statusOk r.status then none
    else some (parseErrorResponse r.status r.errBody)

/-! ## Concrete scenarios used by the claims' test cases -/

/-- A user distinguished only by its ID, for pagination scenarios. -/
def mkUser (i : Nat) : User := { ID := (i : Int) }

/-- First page of the two-page scenario: 500 users with IDs 0..499. -/
def page1 : Users := (List.range 500).map mkUser

/-- Second page of the two-page scenario: 10 users with IDs 500..509. -/
def page2 : Users := (List.range 10).map (fun i => mkUser (500 + i))

/-- A mock server returning a full page of 500 records at offset 0 and a
short page of 10 records at offset 500 (the spec's pagination test). -/
def twoPageServer (input : GetUsersInput) : Except ClientError Users :=
  if input.Offset = 0 then .ok page1
  else if input.Offset = 500 then .ok page2
  else .ok []

/-! ## Theorems -/

/-- The appending loop of `Users.Filter`, run from any accumulator, yields
the accumulator followed by the filtered list. -/
lemma Filter_foldl_eq (f : UserFilterFunc) (users acc : List User) :
    List.foldl (fun Results User => if f User then Results ++ [User] else Results) acc users
      = acc ++ users.filter f := by
  induction users generalizing acc with
  | nil => simp
  | cons u us ih =>
    simp only [List.foldl_cons, List.filter_cons]
    by_cases h : f u = true
    · simp [h, ih]
    · simp [h, ih]

/-- **C9**: `Users.Filter` returns exactly the subsequence of records
satisfying the predicate — it coincides with `List.filter`, is a sublist
of the input (so order and field values of retained records are
preserved), every retained record satisfies the predicate, and filtering
`[{ID:1},{ID:2}]` with the predicate `ID > 1` returns exactly
`[{ID:2}]`. -/
theorem Users_Filter_spec :
    (∀ (users : Users) (f : UserFilterFunc),
      users.Filter f = users.filter f ∧
      List.Sublist (users.Filter f) users ∧
      ∀ u ∈ users.Filter f, f u = true) ∧
    Users.Filter [{ ID := 1 }, { ID := 2 }] (fun user => decide (user.ID > 1)) =
      [{ ID := 2 }] := by
  constructor
  · intro users f
    have h : users.Filter f = users.filter f := Filter_foldl_eq f users []
    refine ⟨h, h ▸ List.filter_sublist users, ?_⟩
    intro u hu
    rw [h] at hu
    exact (List.mem_filter.mp hu).2
  · decide

/-- **C4**: the shared error-classification rule: status 401 yields the
Unauthorized sentinel, 403 the Forbidden sentinel, and any other status
yields the decoded `{message, error}` body itself as the error value,
whose message is the `error` field when non-empty and the `message` field
otherwise. -/
theorem parseErrorResponse_spec (status : Nat) (errBody : Except String apiError)
    (e : apiError) :
    (status = 401 → parseErrorResponse status errBody = .ErrUnauthorized) ∧
    (status = 403 → parseErrorResponse status errBody = .ErrForbidden) ∧
    (status ≠ 401 → status ≠ 403 → errBody = .ok e →
      parseErrorResponse status errBody = .api e ∧
      (e.Err ≠ "" → e.ErrorMsg = e.Err) ∧
      (e.Err = "" → e.ErrorMsg = e.Message)) := by
  refine ⟨fun h1 => ?_, fun h3 => ?_, fun h1 h3 hb => ?_⟩
  · simp [parseErrorResponse, h1]
  · simp [parseErrorResponse, h3]
  · subst hb
    refine ⟨by simp [parseErrorResponse, h1, h3], fun hne => ?_, fun heq => ?_⟩
    · simp [apiError.ErrorMsg, hne]
    · simp [apiError.ErrorMsg, heq]

/-- Witness for **C4** at statuses 401, 403 and 500. -/
theorem parseErrorResponse_spec_witness :
    parseErrorResponse 401 (.ok {}) = .ErrUnauthorized ∧
    parseErrorResponse 403 (.ok {}) = .ErrForbidden ∧
    parseErrorResponse 500 (.ok { Message := "x", Err := "bad request" }) =
      .api { Message := "x", Err := "bad request" } ∧
    apiError.ErrorMsg { Message := "x", Err := "bad request" } = "bad request" :=
  ⟨(parseErrorResponse_spec 401 (.ok {}) {}).1 rfl,
   (parseErrorResponse_spec 403 (.ok {}) {}).2.1 rfl,
   ((parseErrorResponse_spec 500 (.ok { Message := "x", Err := "bad request" })
      { Message := "x", Err := "bad request" }).2.2 (by decide) (by decide) rfl).1,
   ((parseErrorResponse_spec 500 (.ok { Message := "x", Err := "bad request" })
      { Message := "x", Err := "bad request" }).2.2 (by decide) (by decide) rfl).2.1
     (by decide)⟩

/-- **C2**: when the cached token's expiry is more than 10 seconds after
the current time, `Token` returns the cached value, issues no request
(the request trace is empty and the result does not depend on the
server), and leaves the cached state unchanged. -/
theorem Token_cached (st : TokenState) (now : Int) (Username Password : String)
    (server : Request → TransportResult TokenEndpointResponse)
    (h : st.Expires > now + 10) :
    Token st now Username Password server = (.ok st.Value, st, []) := by
  simp [Token, h]

/-- Witness for **C2**: a token expiring at 100 against now = 0, with a
server that would fail if consulted. -/
theorem Token_cached_witness :
    Token { Value := "tok", Expires := 100 } 0 "u" "p" (fun _ => .err "down") =
      (.ok "tok", { Value := "tok", Expires := 100 }, []) :=
  Token_cached { Value := "tok", Expires := 100 } 0 "u" "p" (fun _ => .err "down")
    (by decide)

/-- **C3**: when the cached token's expiry is within 10 seconds of now (or
past), `Token` issues exactly one refresh request — HTTP Basic
authenticated, to the fixed `/api/v2/token` endpoint — and, when the
server answers 2xx with a decodable `{access_token, expires_at}` body, it
replaces the cached value and expiry with the parsed fields and returns
the new token value. -/
theorem Token_refresh (st : TokenState) (now : Int) (Username Password : String)
    (server : Request → TransportResult TokenEndpointResponse)
    (h : ¬ st.Expires > now + 10) :
    (Token st now Username Password server).2.2 = [tokenRequest Username Password] ∧
    (tokenRequest Username Password).path = "/api/v2/token" ∧
    (tokenRequest Username Password).basicAuth = some (Username, Password) ∧
    (∀ (r : TokenEndpointResponse) (tr : tokenResponse),
      server (tokenRequest Username Password) = .resp r →
      statusOk r.status = true → r.tokenBody = .ok tr →
      Token st now Username Password server =
        (.ok tr.access_token, { Value := tr.access_token, Expires := tr.expires_at },
          [tokenRequest Username Password])) := by
  refine ⟨?_, rfl, rfl, ?_⟩
  · unfold Token
    rw [if_neg h]
    rcases hs : server (tokenRequest Username Password) with m | r
    · simp [hs]
    · by_cases hok : statusOk r.status
      · rcases hb : r.tokenBody with m | tr <;> simp [hs, hok, hb]
      · simp [hs, hok]
  · intro r tr hs hok hb
    unfold Token
    rw [if_neg h]
    simp [hs, hok, hb]

/-- Witness for **C3**: an expired token refreshed against a server
answering 200 with `{access_token: "new", expires_at: 999}`. -/
theorem Token_refresh_witness :
    (Token { Value := "old", Expires := 0 } 0 "u" "p"
        (fun _ => .resp { status := 200, tokenBody := .ok { access_token := "new", expires_at := 999 }, errBody := .ok {} }) =
      (.ok "new", { Value := "new", Expires := 999 }, [tokenRequest "u" "p"])) ∧
    (tokenRequest "u" "p").basicAuth = some ("u", "p") := by
  refine ⟨?_, rfl⟩
  exact (Token_refresh { Value := "old", Expires := 0 } 0 "u" "p"
    (fun _ => .resp { status := 200, tokenBody := .ok { access_token := "new", expires_at := 999 }, errBody := .ok {} })
    (by decide)).2.2.2 _ _ rfl (by decide) rfl

/-- **C6**: the token interceptor: when `Token()` fails, the pipeline is
aborted before the request is sent (the result is the token error and
does not depend on the rest of the pipeline); when it succeeds, the
request forwarded downstream carries `Authorization: Bearer <token>`. -/
theorem tokenPluginSend_spec {ρ : Type} :
    (∀ (e : ClientError) (req : Request) (send send' : Request → Except ClientError ρ),
      tokenPluginSend (.error e) req send = .error e ∧
      tokenPluginSend (.error e) req send = tokenPluginSend (.error e) req send') ∧
    (∀ (token : String) (req : Request) (send : Request → Except ClientError ρ),
      tokenPluginSend (.ok token) req send =
        send { req with authHeader := some ("Bearer " ++ token) }) := by
  exact ⟨fun e req send send' => ⟨rfl, rfl⟩, fun token req send => rfl⟩

/-- **C7**: `TerminateActiveConnection` issues a DELETE to the
per-connection endpoint and returns nil exactly when the response status
is 2xx; a non-2xx response yields the shared classified error — in
particular the Unauthorized sentinel on 401 — and a repeated call against
the same (already-terminated) connection returns that same classified
error again rather than crashing. -/
theorem TerminateActiveConnection_spec (connectionID : String)
    (server : Request → TransportResult ErrResponse) :
    (terminateRequest connectionID).method = "DELETE" ∧
    (terminateRequest connectionID).path = "/api/v2/connections/" ++ connectionID ∧
    (TerminateActiveConnection connectionID server = none ↔
      ∃ r, server (terminateRequest connectionID) = .resp r ∧ statusOk r.status = true) ∧
    (∀ r, server (terminateRequest connectionID) = .resp r → statusOk r.status = false →
      TerminateActiveConnection connectionID server =
        some (parseErrorResponse r.status r.errBody)) ∧
    (∀ r, server (terminateRequest connectionID) = .resp r → r.status = 401 →
      (TerminateActiveConnection connectionID server,
        TerminateActiveConnection connectionID server) =
        (some .ErrUnauthorized, some .ErrUnauthorized)) := by
  refine ⟨rfl, rfl, ?_, ?_, ?_⟩
  · constructor
    · intro hnone
      unfold TerminateActiveConnection at hnone
      rcases hs : server (terminateRequest connectionID) with m | r
      · rw [hs] at hnone
        simp at hnone
      · rw [hs] at hnone
        by_cases hok : statusOk r.status
        · exact ⟨r, rfl, hok⟩
        · simp [hok] at hnone
    · rintro ⟨r, hs, hok⟩
      unfold TerminateActiveConnection
      rw [hs]
      simp [hok]
  · intro r hs hok
    unfold TerminateActiveConnection
    rw [hs]
    simp [hok]
  · intro r hs h401
    unfold TerminateActiveConnection
    rw [hs]
    simp [parseErrorResponse, statusOk, h401]

/-- Witness for **C7** (mirroring the test): a DELETE answered 200 returns
nil, a DELETE answered 401 returns the Unauthorized sentinel both times. -/
theorem TerminateActiveConnection_spec_witness :
    TerminateActiveConnection "SFTP_001" (fun _ => .resp { status := 200, errBody := .ok {} }) = none ∧
    (TerminateActiveConnection "SFTP_002" (fun _ => .resp { status := 401, errBody := .ok {} }),
      TerminateActiveConnection "SFTP_002" (fun _ => .resp { status := 401, errBody := .ok {} })) =
      (some .ErrUnauthorized, some .ErrUnauthorized) := by
  constructor
  · exact (TerminateActiveConnection_spec "SFTP_001"
      (fun _ => .resp { status := 200, errBody := .ok {} })).2.2.1.mpr
      ⟨{ status := 200, errBody := .ok {} }, rfl, by decide⟩
  · exact (TerminateActiveConnection_spec "SFTP_002"
      (fun _ => .resp { status := 401, errBody := .ok {} })).2.2.2.2
      { status := 401, errBody := .ok {} } rfl rfl

/-- The C8 claim as the spec words it: each query parameter is omitted
when zero/empty and attached when non-zero/non-empty (this is the
spec-side statement to be compared with `buildGetUsersRequest`; the code
actually tests `> 0`, which differs on negative values). -/
def specQueryRule (input : GetUsersInput) : Prop :=
  ((buildGetUsersRequest input).query.lookup "offset" =
    if input.Offset = 0 then none else some (toString input.Offset)) ∧
  ((buildGetUsersRequest input).query.lookup "limit" =
    if input.Limit = 0 then none else some (toString input.Limit)) ∧
  ((buildGetUsersRequest input).query.lookup "order" =
    if input.Order = "" then none else some input.Order)

/-- **C8 counterexample**: at `Offset = -1` (non-zero) the claim requires
the `offset` parameter to be attached, but the code's `input.Offset > 0`
test omits it. -/
theorem specQueryRule_counterexample :
    ¬ specQueryRule { Offset := -1 } := by
  intro h
  exact absurd h.1 (by decide)

/-- **C8 (amended)**: `GetUsers` builds the list request on path
`/api/v2/users` with the `offset` and `limit` parameters attached (as
decimal strings) exactly when positive — so omitted when zero, empty or
negative — and `order` attached exactly when non-empty. -/
theorem buildGetUsersRequest_query (input : GetUsersInput) :
    (buildGetUsersRequest input).path = "/api/v2/users" ∧
    ((buildGetUsersRequest input).query.lookup "offset" =
      if 0 < input.Offset then some (toString input.Offset) else none) ∧
    ((buildGetUsersRequest input).query.lookup "limit" =
      if 0 < input.Limit then some (toString input.Limit) else none) ∧
    ((buildGetUsersRequest input).query.lookup "order" =
      if input.Order ≠ "" then some input.Order else none) := by
  unfold buildGetUsersRequest
  by_cases h1 : 0 < input.Offset <;> by_cases h2 : 0 < input.Limit <;>
    by_cases h3 : input.Order ≠ "" <;>
    simp [h1, h2, h3, List.lookup]

/-- The input of the k-th `GetUsers` call the `GetAllUsers` loop issues
when started from `Input`: same limit and order, offset advanced by
`k * Input.Limit`. -/
def pageInput (Input : GetUsersInput) (k : Nat) : GetUsersInput :=
  { Offset := Input.Offset + Input.Limit * (k : Int), Limit := Input.Limit,
    Order := Input.Order }

lemma pageInput_zero (Input : GetUsersInput) : pageInput Input 0 = Input := by
  simp [pageInput]

lemma pageInput_shift (Input : GetUsersInput) (k : Nat) :
    pageInput { Input with Offset := Input.Offset + Input.Limit } k =
      pageInput Input (k + 1) := by
  unfold pageInput
  congr 1
  push_cast
  ring

lemma map_range_succ_left {α : Type} (f : Nat → α) (n : Nat) :
    (List.range (n + 1)).map f = f 0 :: (List.range n).map (fun k => f (k + 1)) := by
  rw [List.range_succ_eq_map, List.map_cons, List.map_map]
  rfl

/-- Full characterization of a terminating run of the `GetAllUsers` loop:
some `n + 1` calls are issued, the k-th at `pageInput Input k`, and on
success the returned users are the accumulator followed by the
concatenation of the pages those calls returned, in order. -/
lemma getAllUsersLoop_spec (get : GetUsersInput → Except ClientError Users) :
    ∀ (fuel : Nat) (Input : GetUsersInput) (all : Users) (calls : List GetUsersInput)
      (res : Except ClientError Users) (calls' : List GetUsersInput),
      getAllUsersLoop get fuel Input all calls = some (res, calls') →
      ∃ n : Nat,
        calls' = calls ++ (List.range (n + 1)).map (pageInput Input) ∧
        ∀ users, res = .ok users →
          users = all ++ ((List.range (n + 1)).map
            (fun k => (get (pageInput Input k)).toOption.getD [])).flatten := by
  intro fuel
  induction fuel with
  | zero =>
    intro Input all calls res calls' h
    simp [getAllUsersLoop] at h
  | succ fuel ih =>
    intro Input all calls res calls' h
    simp only [getAllUsersLoop] at h
    split at h
    case _ e hg =>
      simp only [Option.some.injEq, Prod.mk.injEq] at h
      refine ⟨0, ?_, ?_⟩
      · rw [← h.2]
        simp [List.range_succ, pageInput_zero]
      · intro users husers
        rw [← h.1] at husers
        exact absurd husers (by simp)
    case _ page hg =>
      split at h
      · simp only [Option.some.injEq, Prod.mk.injEq] at h
        refine ⟨0, ?_, ?_⟩
        · rw [← h.2]
          simp [List.range_succ, pageInput_zero]
        · intro users husers
          rw [← h.1] at husers
          simp only [Except.ok.injEq] at husers
          subst husers
          simp [List.range_succ, pageInput_zero, hg, Except.toOption]
      · obtain ⟨n, hc, hu⟩ := ih _ _ _ _ _ h
        have h1 : ∀ k, pageInput Input (k + 1) =
            pageInput { Input with Offset := Input.Offset + Input.Limit } k :=
          fun k => (pageInput_shift Input k).symm
        refine ⟨n + 1, ?_, ?_⟩
        · rw [hc, map_range_succ_left (pageInput Input) (n + 1)]
          simp [pageInput_zero, h1]
        · intro users husers
          have hacc := hu users husers
          rw [hacc,
            map_range_succ_left (fun k => (get (pageInput Input k)).toOption.getD []) (n + 1)]
          simp [pageInput_zero, hg, Except.toOption, h1]

set_option maxRecDepth 10000 in
/-- **C1**: every terminating run of `GetAllUsers` issues its `GetUsers`
calls with a fixed limit of 500, offsets 0, 500, 1000, … (advancing by
500 per page), and on success returns the concatenation of the returned
pages in order; in particular, against a server answering a 500-record
page at offset 0 and a 10-record page at offset 500 it returns all 510
records in two calls with offsets 0 and 500. -/
theorem GetAllUsers_spec :
    (∀ (get : GetUsersInput → Except ClientError Users) (fuel : Nat)
       (res : Except ClientError Users) (calls : List GetUsersInput),
      GetAllUsers get fuel = some (res, calls) →
      ∃ n : Nat,
        calls = (List.range (n + 1)).map
          (fun (k : Nat) => { Offset := 500 * (k : Int), Limit := 500, Order := "" }) ∧
        ∀ users, res = .ok users →
          users = ((List.range (n + 1)).map
            (fun (k : Nat) =>
              (get { Offset := 500 * (k : Int), Limit := 500, Order := "" }).toOption.getD
                [])).flatten) ∧
    (GetAllUsers twoPageServer 3 =
      some (.ok (page1 ++ page2),
        [{ Offset := 0, Limit := 500 }, { Offset := 500, Limit := 500 }]) ∧
     (page1 ++ page2).length = 510) := by
  constructor
  · intro get fuel res calls h
    obtain ⟨n, hc, hu⟩ := getAllUsersLoop_spec get fuel _ _ _ _ _ h
    have hpi : pageInput { Offset := 0, Limit := 500, Order := "" } =
        fun (k : Nat) =>
          ({ Offset := 500 * (k : Int), Limit := 500, Order := "" } : GetUsersInput) := by
      funext k
      simp [pageInput]
    rw [hpi] at hc hu
    exact ⟨n, by simpa using hc, fun users husers => by simpa using hu users husers⟩
  · exact ⟨by rfl, by rfl⟩

/-- A run of the `GetAllUsers` loop that ends in an error got that error
from one of the recorded `GetUsers` calls. -/
lemma getAllUsersLoop_error_source (get : GetUsersInput → Except ClientError Users) :
    ∀ (fuel : Nat) (Input : GetUsersInput) (all : Users) (calls : List GetUsersInput)
      (e : ClientError) (calls' : List GetUsersInput),
      getAllUsersLoop get fuel Input all calls = some (.error e, calls') →
      ∃ Input' ∈ calls', get Input' = .error e := by
  intro fuel
  induction fuel with
  | zero =>
    intro Input all calls e calls' h
    simp [getAllUsersLoop] at h
  | succ fuel ih =>
    intro Input all calls e calls' h
    simp only [getAllUsersLoop] at h
    split at h
    case _ e' hg =>
      simp only [Option.some.injEq, Prod.mk.injEq, Except.error.injEq] at h
      obtain ⟨he, hc⟩ := h
      subst he
      exact ⟨Input, by rw [← hc]; simp, hg⟩
    case _ page hg =>
      split at h
      · simp only [Option.some.injEq, Prod.mk.injEq] at h
        exact absurd h.1 (by simp)
      · exact ih _ _ _ _ _ h

/-- **C5**: when a page call returns an error, `GetAllUsers` returns that
error with no user list — whatever records `all` had accumulated from
earlier pages are discarded (the result does not mention them) — and any
errored run of `GetAllUsers` got its error from one of its `GetUsers`
calls. -/
theorem GetAllUsers_error_discard :
    (∀ (get : GetUsersInput → Except ClientError Users) (fuel : Nat)
       (Input : GetUsersInput) (all : Users) (calls : List GetUsersInput) (e : ClientError),
      get Input = .error e →
      getAllUsersLoop get (fuel + 1) Input all calls = some (.error e, calls ++ [Input])) ∧
    (∀ (get : GetUsersInput → Except ClientError Users) (fuel : Nat)
       (e : ClientError) (calls : List GetUsersInput),
      GetAllUsers get fuel = some (.error e, calls) →
      ∃ Input ∈ calls, get Input = .error e) := by
  constructor
  · intro get fuel Input all calls e hg
    simp [getAllUsersLoop, hg]
  · intro get fuel e calls h
    exact getAllUsersLoop_error_source get fuel _ _ _ _ _ h

/-- The stop condition of the `GetAllUsers` loop at its k-th call: the
server returns an error, or a page with fewer than 500 records. -/
def stopsAt (get : GetUsersInput → Except ClientError Users) (k : Nat) : Prop :=
  (∃ e, get { Offset := 500 * (k : Int), Limit := 500, Order := "" } = .error e) ∨
  (∃ page, get { Offset := 500 * (k : Int), Limit := 500, Order := "" } = .ok page ∧
    page.length < 500)

/-- When no call ever stops the loop, no amount of fuel makes the
`GetAllUsers` loop finish. -/
lemma getAllUsersLoop_none (get : GetUsersInput → Except ClientError Users)
    (hcont : ∀ k : Nat, ¬ stopsAt get k) :
    ∀ (fuel j : Nat) (all : Users) (calls : List GetUsersInput),
      getAllUsersLoop get fuel { Offset := 500 * (j : Int), Limit := 500, Order := "" }
        all calls = none := by
  intro fuel
  induction fuel with
  | zero => intro j all calls; rfl
  | succ fuel ih =>
    intro j all calls
    have h := hcont j
    rcases hg : get { Offset := 500 * (j : Int), Limit := 500, Order := "" } with e | page
    · exact absurd (Or.inl ⟨e, hg⟩) h
    · have hlen : ¬ page.length < 500 := fun hlt => h (Or.inr ⟨page, hg, hlt⟩)
      have hlen' : ¬ ((page.length : Int) < 500) := by exact_mod_cast hlen
      have harith : (500 : Int) * (j : Int) + 500 = 500 * ((j + 1 : Nat) : Int) := by
        push_cast
        ring
      have hin : ({ Offset := 500 * (j : Int) + 500, Limit := 500, Order := "" } : GetUsersInput) = { Offset := 500 * ((j + 1 : Nat) : Int), Limit := 500, Order := "" } := by
        rw [harith]
      simp only [getAllUsersLoop, hg]
      rw [if_neg hlen']
      rw [hin]
      exact ih (j + 1) _ _

/-- When the first k calls keep the loop going and the k-th call stops it,
fuel k + 1 suffices for the `GetAllUsers` loop to finish. -/
lemma getAllUsersLoop_stops (get : GetUsersInput → Except ClientError Users) :
    ∀ (k j : Nat) (all : Users) (calls : List GetUsersInput),
      (∀ i, i < k → ¬ stopsAt get (j + i)) → stopsAt get (j + k) →
      ∃ r, getAllUsersLoop get (k + 1)
        { Offset := 500 * (j : Int), Limit := 500, Order := "" } all calls = some r := by
  intro k
  induction k with
  | zero =>
    intro j all calls _ hstop
    rw [Nat.add_zero] at hstop
    rcases hstop with ⟨e, hg⟩ | ⟨page, hg, hlen⟩
    · refine ⟨(.error e,
        calls ++ [{ Offset := 500 * (j : Int), Limit := 500, Order := "" }]), ?_⟩
      simp [getAllUsersLoop, hg]
    · have hlen' : (page.length : Int) < 500 := by exact_mod_cast hlen
      refine ⟨(.ok (all ++ page),
        calls ++ [{ Offset := 500 * (j : Int), Limit := 500, Order := "" }]), ?_⟩
      simp only [getAllUsersLoop, hg]
      rw [if_pos hlen']
  | succ k ih =>
    intro j all calls hcont hstop
    have h0 := hcont 0 (Nat.succ_pos k)
    rw [Nat.add_zero] at h0
    rcases hg : get { Offset := 500 * (j : Int), Limit := 500, Order := "" } with e | page
    · exact absurd (Or.inl ⟨e, hg⟩) h0
    · have hlen : ¬ page.length < 500 := fun hlt => h0 (Or.inr ⟨page, hg, hlt⟩)
      have hlen' : ¬ ((page.length : Int) < 500) := by exact_mod_cast hlen
      have harith : (500 : Int) * (j : Int) + 500 = 500 * ((j + 1 : Nat) : Int) := by
        push_cast
        ring
      have hin : ({ Offset := 500 * (j : Int) + 500, Limit := 500, Order := "" } : GetUsersInput) = { Offset := 500 * ((j + 1 : Nat) : Int), Limit := 500, Order := "" } := by
        rw [harith]
      have hcont' : ∀ i, i < k → ¬ stopsAt get (j + 1 + i) := by
        intro i hi
        have := hcont (i + 1) (by omega)
        rwa [show j + (i + 1) = j + 1 + i by omega] at this
      have hstop' : stopsAt get (j + 1 + k) := by
        rwa [show j + (k + 1) = j + 1 + k by omega] at hstop
      obtain ⟨r, hr⟩ := ih (j + 1) (all ++ page) (calls ++
        [{ Offset := 500 * (j : Int), Limit := 500, Order := "" }]) hcont' hstop'
      refine ⟨r, ?_⟩
      simp only [getAllUsersLoop, hg]
      rw [if_neg hlen']
      rw [hin]
      exact hr

/-- **C10**: `GetAllUsers` terminates exactly when some call to `GetUsers`
returns an error or a page of fewer than 500 records: with any amount of
fuel a run only finishes under that condition, and against a server that
answers every request with exactly 500 records the loop never finishes
(there is no client-side bound on the number of iterations). -/
theorem GetAllUsers_termination (get : GetUsersInput → Except ClientError Users) :
    ((∃ fuel r, GetAllUsers get fuel = some r) ↔ (∃ k, stopsAt get k)) ∧
    ((∀ input, ∃ page, get input = .ok page ∧ page.length = 500) →
      ∀ fuel, GetAllUsers get fuel = none) := by
  have h0 : ({ Offset := 500 * ((0 : Nat) : Int), Limit := 500, Order := "" } :
      GetUsersInput) = { Offset := 0, Limit := 500, Order := "" } := by
    norm_num
  constructor
  · constructor
    · intro hterm
      by_contra hns
      push_neg at hns
      obtain ⟨fuel, r, hr⟩ := hterm
      have := getAllUsersLoop_none get hns fuel 0 [] []
      rw [h0] at this
      rw [GetAllUsers] at hr
      rw [this] at hr
      exact Option.noConfusion hr
    · intro hstop
      classical
      obtain ⟨k, hk⟩ := hstop
      have hex : ∃ k, stopsAt get k := ⟨k, hk⟩
      have hmin : ∀ i, i < Nat.find hex → ¬ stopsAt get i :=
        fun i hi => Nat.find_min hex hi
      obtain ⟨r, hr⟩ := getAllUsersLoop_stops get (Nat.find hex) 0 [] []
        (by intro i hi; rw [Nat.zero_add]; exact hmin i hi)
        (by rw [Nat.zero_add]; exact Nat.find_spec hex)
      rw [h0] at hr
      exact ⟨Nat.find hex + 1, r, hr⟩
  · intro hfull fuel
    have hns : ∀ k : Nat, ¬ stopsAt get k := by
      intro k hk
      obtain ⟨page, hg, hlen⟩ :=
        hfull { Offset := 500 * (k : Int), Limit := 500, Order := "" }
      rcases hk with ⟨e, hg'⟩ | ⟨page', hg', hlen'⟩
      · rw [hg] at hg'
        exact Except.noConfusion hg'
      · rw [hg] at hg'
        have hpp : page = page' := by
          simpa using hg'
        rw [← hpp] at hlen'
        omega
    have := getAllUsersLoop_none get hns fuel 0 [] []
    rw [h0] at this
    rw [GetAllUsers]
    exact this

set_option maxRecDepth 10000 in
/-- Witness for **C10** at the two-page server: it terminates, so by the
theorem some call stops it. -/
theorem GetAllUsers_termination_witness : ∃ k, stopsAt twoPageServer k :=
  (GetAllUsers_termination twoPageServer).1.mp
    ⟨3, (.ok (page1 ++ page2),
      [{ Offset := 0, Limit := 500 }, { Offset := 500, Limit := 500 }]), by rfl⟩

end SftpgoApi
